import Mathlib

/-
  Verification development for the pi-pico-ssd1351 repository.

  The repository holds two firmware variants that drive an SSD1351 OLED
  panel: a blocking bare-metal one (src/src/main.rs) and a cooperative
  async one (src/embassy/src/main.rs).  Both contain an identical
  fixed-capacity text buffer FmtBuf and an identical render loop that
  draws a static framing once and then re-renders a counter region on
  every tick.

  The FmtBuf definitions below are shallow embeddings of the Rust code:
  the backing array [u8; 64] becomes a length-64 list of bytes, the
  write cursor ptr a natural number, and the fallible as_str (whose
  from_utf8(..).unwrap() can panic) an Option.  The draw-target and
  panel semantics are modelled from the design spec, because the
  draw-target implementation lives in external crates (ssd1351,
  embedded-graphics); the sequences of draw calls and all their
  arguments are transcribed from the two main.rs files.
-/

/-- Shallow embedding of the Rust struct FmtBuf from src/src/main.rs
(identical in src/embassy/src/main.rs): a 64-byte backing array and a
write cursor.  Bytes are represented as natural numbers below 256. -/
structure FmtBuf where
  buf : List Nat
  ptr : Nat
deriving DecidableEq

/-- FmtBuf::new — zero-filled 64-byte array, cursor 0. -/
def FmtBuf.new : FmtBuf :=
  { buf := List.replicate 64 0, ptr := 0 }

/-- FmtBuf::reset — sets the cursor to 0; the backing array is untouched. -/
def FmtBuf.reset (b : FmtBuf) : FmtBuf :=
  { buf := b.buf, ptr := 0 }

/-- Number of bytes accepted by a write, exactly as computed in
FmtBuf::write_str: rest_len = buf.len() - ptr, then
len = if rest_len < s.len() then rest_len else s.len(). -/
def FmtBuf.writeLen (b : FmtBuf) (s : List Nat) : Nat :=
  if b.buf.length - b.ptr < s.length then b.buf.length - b.ptr else s.length

/-- FmtBuf::write_str — copies the first writeLen bytes of s into the
backing array at positions [ptr, ptr+len), advances the cursor by len,
and returns Ok(()) unconditionally (the Bool component, always true). -/
def FmtBuf.write_str (b : FmtBuf) (s : List Nat) : FmtBuf × Bool :=
  ({ buf := b.buf.take b.ptr ++ s.take (b.writeLen s) ++
       b.buf.drop (b.ptr + b.writeLen s),
     ptr := b.ptr + b.writeLen s }, true)

/-- The initialized region of the buffer: bytes [0, ptr). -/
def FmtBuf.content (b : FmtBuf) : List Nat :=
  b.buf.take b.ptr

/-- One-byte-at-a-time UTF-8 acceptor, the standard DFA equivalent to
the validation done by core::str::from_utf8.  The state is the number k
of continuation bytes still expected together with the admissible range
[lo, hi] for the next byte (the first continuation byte of a sequence
is range-restricted to exclude overlong encodings, surrogates and
values above U+10FFFF; later continuation bytes are plain 0x80..0xBF).
At k = 0 the next byte must start a new sequence: ASCII below 0x80,
two-byte leads 0xC2..0xDF, three-byte leads 0xE0..0xEF, four-byte
leads 0xF0..0xF4. -/
def utf8Scan : List Nat → Nat → Nat → Nat → Bool
  | [], k, _, _ => k == 0
  | b :: rest, 0, _, _ =>
    if b < 128 then utf8Scan rest 0 0 0
    else if b < 194 then false
    else if b < 224 then utf8Scan rest 1 128 191
    else if b = 224 then utf8Scan rest 2 160 191
    else if b = 237 then utf8Scan rest 2 128 159
    else if b < 240 then utf8Scan rest 2 128 191
    else if b = 240 then utf8Scan rest 3 144 191
    else if b < 244 then utf8Scan rest 3 128 191
    else if b = 244 then utf8Scan rest 3 128 143
    else false
  | b :: rest, k + 1, lo, hi =>
    if lo ≤ b ∧ b ≤ hi then utf8Scan rest k 128 191 else false

/-- UTF-8 validity of a byte sequence, as checked by
core::str::from_utf8. -/
def validUtf8 (l : List Nat) : Bool :=
  utf8Scan l 0 0 0

/-- FmtBuf::as_str — from_utf8(&buf[0..ptr]).unwrap(): returns the
initialized bytes when they are valid UTF-8; none models the panic
branch of the unwrap. -/
def FmtBuf.as_str (b : FmtBuf) : Option (List Nat) :=
  if validUtf8 b.content then some b.content else none

theorem FmtBuf.writeLen_le_length (b : FmtBuf) (s : List Nat) :
    b.writeLen s ≤ s.length := by
  unfold FmtBuf.writeLen
  split <;> omega

theorem FmtBuf.writeLen_le_rest (b : FmtBuf) (s : List Nat) :
    b.writeLen s ≤ b.buf.length - b.ptr := by
  unfold FmtBuf.writeLen
  split <;> omega

theorem FmtBuf.write_str_ptr (b : FmtBuf) (s : List Nat) :
    ((b.write_str s).1).ptr = b.ptr + b.writeLen s := rfl

theorem FmtBuf.write_str_ok (b : FmtBuf) (s : List Nat) :
    (b.write_str s).2 = true := rfl

theorem FmtBuf.write_str_length (b : FmtBuf) (s : List Nat)
    (h : b.ptr ≤ b.buf.length) :
    ((b.write_str s).1).buf.length = b.buf.length := by
  have h1 := b.writeLen_le_length s
  have h2 := b.writeLen_le_rest s
  simp only [FmtBuf.write_str, List.length_append, List.length_take,
    List.length_drop]
  omega

theorem take_append_exact (A B C : List Nat) :
    (A ++ (B ++ C)).take (A.length + B.length) = A ++ B := by
  rw [List.take_append_eq_append_take, List.take_of_length_le (by omega)]
  have h1 : A.length + B.length - A.length = B.length := by omega
  rw [h1, List.take_append_eq_append_take, List.take_length, Nat.sub_self]
  simp

theorem FmtBuf.content_write (b : FmtBuf) (s : List Nat)
    (h : b.ptr ≤ b.buf.length) :
    ((b.write_str s).1).content = b.content ++ s.take (b.writeLen s) := by
  have h1 := b.writeLen_le_length s
  have hlt : (b.buf.take b.ptr).length = b.ptr := by
    simp [List.length_take]; omega
  have hls : (s.take (b.writeLen s)).length = b.writeLen s := by
    simp [List.length_take]; omega
  simp only [FmtBuf.write_str, FmtBuf.content, List.append_assoc]
  rw [show b.ptr + b.writeLen s
        = (b.buf.take b.ptr).length + (s.take (b.writeLen s)).length by
      rw [hlt, hls]]
  exact take_append_exact _ _ _

theorem FmtBuf.eq_of_parts (a b : FmtBuf) (h1 : a.buf = b.buf)
    (h2 : a.ptr = b.ptr) : a = b := by
  cases a; cases b; simp_all

theorem FmtBuf.writeLen_eq_min (b : FmtBuf) (s : List Nat)
    (hL : b.buf.length = 64) :
    b.writeLen s = min s.length (64 - b.ptr) := by
  unfold FmtBuf.writeLen
  rw [hL, Nat.min_def]
  split_ifs <;> omega

theorem utf8Scan_cons_zero (b : Nat) (rest : List Nat) :
    utf8Scan (b :: rest) 0 0 0
      = (if b < 128 then utf8Scan rest 0 0 0
        else if b < 194 then false
        else if b < 224 then utf8Scan rest 1 128 191
        else if b = 224 then utf8Scan rest 2 160 191
        else if b = 237 then utf8Scan rest 2 128 159
        else if b < 240 then utf8Scan rest 2 128 191
        else if b = 240 then utf8Scan rest 3 144 191
        else if b < 244 then utf8Scan rest 3 128 191
        else if b = 244 then utf8Scan rest 3 128 143
        else false) := rfl

theorem validUtf8_of_ascii :
    ∀ l : List Nat, (∀ x ∈ l, x < 128) → validUtf8 l = true
  | [], _ => rfl
  | b :: rest, h => by
    have hb : b < 128 := h b (List.mem_cons_self b rest)
    have ih := validUtf8_of_ascii rest
      (fun x hx => h x (List.mem_cons_of_mem b hx))
    unfold validUtf8 at ih ⊢
    rw [utf8Scan_cons_zero, if_pos hb]
    exact ih

/-- Well-formedness of a text buffer: backing array of exactly 64 bytes
and a cursor inside the capacity. -/
def FmtBuf.wf (b : FmtBuf) : Prop :=
  b.buf.length = 64 ∧ b.ptr ≤ 64

instance (b : FmtBuf) : Decidable b.wf := by
  unfold FmtBuf.wf; infer_instance

/-- Bytes of 63 copies of lowercase a followed by the two-byte UTF-8
sequence 0xC3 0xA9 (the character e with acute accent): a valid UTF-8
string of byte length 65, one byte past the buffer capacity. -/
def overflowInput : List Nat := List.replicate 63 97 ++ [195, 169]

/-- Bytes of 63 copies of lowercase a. -/
def asciiPad : List Nat := List.replicate 63 97

/-- The two-byte UTF-8 sequence 0xC3 0xA9. -/
def eAcute : List Nat := [195, 169]

/-- C1 counterexample: the claim that every sequence of writes leaves
valid UTF-8 in [0, cursor) — with truncation at the last complete
sequence boundary, so that as_str never fails — is false.  Writing 63
ASCII bytes and then the two-byte character 0xC3 0xA9 truncates inside
the multi-byte sequence: the cursor reaches 64 with the lone lead byte
0xC3 as the last content byte, the content is not valid UTF-8, and
as_str (the unwrap of from_utf8) reaches its panic branch. -/
theorem C1_split_write_invalid :
    validUtf8 asciiPad = true ∧ validUtf8 eAcute = true ∧
    (((FmtBuf.new.write_str asciiPad).1.write_str eAcute).1).ptr = 64 ∧
    validUtf8 ((((FmtBuf.new.write_str asciiPad).1.write_str
      eAcute).1).content) = false ∧
    (((FmtBuf.new.write_str asciiPad).1.write_str eAcute).1).as_str
      = none := by
  decide

/-- C1 amended: write_str truncates at a raw byte count, not at a UTF-8
sequence boundary, so the content [0, cursor) is only guaranteed to be
valid UTF-8 — and as_str to succeed — when the writes cannot be split
mid-sequence, in particular when every byte written is ASCII (below
0x80), as is the case for all the strings this program writes. -/
theorem C1_ascii_writes_valid (b : FmtBuf) (s : List Nat)
    (hL : b.buf.length = 64) (hp : b.ptr ≤ 64)
    (hb : ∀ x ∈ b.content, x < 128) (hs : ∀ x ∈ s, x < 128) :
    validUtf8 (((b.write_str s).1).content) = true ∧
    ((b.write_str s).1).as_str = some (((b.write_str s).1).content) := by
  have hc := FmtBuf.content_write b s (by omega)
  have hmem : ∀ x ∈ ((b.write_str s).1).content, x < 128 := by
    rw [hc]
    intro x hx
    rcases List.mem_append.mp hx with hx1 | hx2
    · exact hb x hx1
    · exact hs x ((List.take_sublist _ _).subset hx2)
  have hv := validUtf8_of_ascii _ hmem
  refine ⟨hv, ?_⟩
  unfold FmtBuf.as_str
  simp [hv]

/-- C1 amended, witness at a fresh buffer and the ASCII string hi. -/
theorem C1_ascii_writes_valid_witness :
    validUtf8 (((FmtBuf.new.write_str [104, 105]).1).content) = true ∧
    ((FmtBuf.new.write_str [104, 105]).1).as_str
      = some (((FmtBuf.new.write_str [104, 105]).1).content) :=
  C1_ascii_writes_valid FmtBuf.new [104, 105]
    (by decide) (by decide) (by decide) (by decide)

/-- C2 counterexample: for the 65-byte valid UTF-8 input overflowInput
(63 ASCII bytes then one two-byte character), a write into a fresh
buffer truncates to 64 bytes, cutting the final character in half; the
subsequent as_str does not return the 64-byte prefix as the claim
states but instead hits the unwrap panic branch (none). -/
theorem C2_overflow_as_str_none :
    validUtf8 overflowInput = true ∧
    ((FmtBuf.new.write_str overflowInput).1).as_str = none ∧
    ¬ ((FmtBuf.new.write_str overflowInput).1).as_str
        = some (overflowInput.take 64) := by
  decide

/-- C2 amended: write(S) appends exactly min(len(S), 64 − cursor) bytes
of S and returns success unconditionally; a write into a buffer with
cursor 0 leaves the content equal to the byte prefix of S of length
min(len(S), 64), and as_str returns that prefix whenever it is valid
UTF-8 (the truncation point may split a multi-byte sequence, in which
case as_str fails instead of returning the prefix). -/
theorem C2_write_appends_min (b : FmtBuf) (s : List Nat)
    (hL : b.buf.length = 64) (hp : b.ptr ≤ 64) :
    (b.write_str s).2 = true ∧
    ((b.write_str s).1).ptr = b.ptr + min s.length (64 - b.ptr) ∧
    ((b.write_str s).1).content
      = b.content ++ s.take (min s.length (64 - b.ptr)) ∧
    (b.ptr = 0 → validUtf8 (s.take (min s.length 64)) = true →
      ((b.write_str s).1).as_str = some (s.take (min s.length 64))) := by
  have hmin := FmtBuf.writeLen_eq_min b s hL
  refine ⟨rfl, ?_, ?_, ?_⟩
  · rw [FmtBuf.write_str_ptr, hmin]
  · rw [FmtBuf.content_write b s (by omega), hmin]
  · intro hp0 hv
    have hc : ((b.write_str s).1).content = s.take (min s.length 64) := by
      rw [FmtBuf.content_write b s (by omega), hmin, hp0]
      simp [FmtBuf.content, hp0]
    unfold FmtBuf.as_str
    rw [hc]
    simp [hv]

/-- C2 amended, witness at a fresh buffer and the ASCII string hi. -/
theorem C2_write_appends_min_witness :
    (FmtBuf.new.write_str [104, 105]).2 = true ∧
    ((FmtBuf.new.write_str [104, 105]).1).ptr
      = FmtBuf.new.ptr + min (List.length [104, 105]) (64 - FmtBuf.new.ptr) ∧
    ((FmtBuf.new.write_str [104, 105]).1).content
      = FmtBuf.new.content
        ++ List.take (min (List.length [104, 105]) (64 - FmtBuf.new.ptr))
          [104, 105] ∧
    (FmtBuf.new.ptr = 0 →
      validUtf8 (List.take (min (List.length [104, 105]) 64) [104, 105])
        = true →
      ((FmtBuf.new.write_str [104, 105]).1).as_str
        = some (List.take (min (List.length [104, 105]) 64) [104, 105])) :=
  C2_write_appends_min FmtBuf.new [104, 105] (by decide) (by decide)

/-- C5: reset sets the cursor to 0 without modifying the backing byte
array, and a subsequent as_str returns the empty string regardless of
any content written before the reset. -/
theorem C5_reset_empty (b : FmtBuf) :
    b.reset.buf = b.buf ∧ b.reset.ptr = 0 ∧ b.reset.as_str = some [] :=
  ⟨rfl, rfl, rfl⟩

/-- C9: once the cursor equals the capacity 64, write_str is a no-op on
the observable state — backing array and cursor unchanged — and still
returns success, so writing to a full buffer is idempotent. -/
theorem C9_full_write_noop (b : FmtBuf) (s : List Nat)
    (hL : b.buf.length = 64) (hp : b.ptr = 64) :
    (b.write_str s).1 = b ∧ (b.write_str s).2 = true := by
  have hlen : b.writeLen s = 0 := by
    unfold FmtBuf.writeLen; split <;> omega
  refine ⟨FmtBuf.eq_of_parts _ _ ?_ ?_, rfl⟩
  · show b.buf.take b.ptr ++ s.take (b.writeLen s)
        ++ b.buf.drop (b.ptr + b.writeLen s) = b.buf
    rw [hlen]
    simp [List.take_append_drop]
  · show b.ptr + b.writeLen s = b.ptr
    rw [hlen]
    omega

/-- C9 witness at a concrete full buffer. -/
theorem C9_full_write_noop_witness :
    ((FmtBuf.mk (List.replicate 64 0) 64).write_str [97]).1
      = FmtBuf.mk (List.replicate 64 0) 64 ∧
    ((FmtBuf.mk (List.replicate 64 0) 64).write_str [97]).2 = true :=
  C9_full_write_noop (FmtBuf.mk (List.replicate 64 0) 64) [97]
    (by decide) (by decide)

/-- C10: the invariant cursor ≤ 64 (with the backing array kept at
length 64) holds after construction and is preserved by reset and
write_str; under it the byte range [cursor, cursor + len) written by
write_str stays inside the array bounds (cursor + len ≤ 64). -/
theorem C10_invariant (b : FmtBuf) (s : List Nat) (h : b.wf) :
    FmtBuf.new.wf ∧ b.reset.wf ∧ ((b.write_str s).1).wf ∧
    b.ptr + b.writeLen s ≤ 64 := by
  obtain ⟨hL, hp⟩ := h
  have h1 := b.writeLen_le_rest s
  refine ⟨by decide, ⟨hL, Nat.zero_le 64⟩, ⟨?_, ?_⟩, by omega⟩
  · rw [FmtBuf.write_str_length b s (by omega)]; exact hL
  · rw [FmtBuf.write_str_ptr]; omega

/-- C10 witness at a fresh buffer. -/
theorem C10_invariant_witness :
    FmtBuf.new.wf ∧ FmtBuf.new.reset.wf ∧
    ((FmtBuf.new.write_str [104]).1).wf ∧
    FmtBuf.new.ptr + FmtBuf.new.writeLen [104] ≤ 64 :=
  C10_invariant FmtBuf.new [104] (by decide)

/-- Rgb565 colors used by the program: Rgb565::BLUE, Rgb565::RED and
Rgb565::WHITE. -/
inductive Color where
  | blue
  | red
  | white
deriving DecidableEq

/-- An axis-aligned rectangle given as top-left corner plus size, as in
Rectangle::new(Point::new(x, y), Size::new(w, h)). -/
structure Rect where
  x : Nat
  y : Nat
  w : Nat
  h : Nat
deriving DecidableEq

/-- The draw-target operations issued by the two main functions: a full
clear, the inside-aligned stroked border on the panel bounding box, a
filled rectangle, and baseline-Top monospaced text at an origin. -/
inductive DrawOp where
  | clear (c : Color)
  | borderStroke (c : Color) (w : Nat)
  | fillRect (r : Rect) (c : Color)
  | text (s : List Nat) (x : Nat) (y : Nat) (c : Color)
deriving DecidableEq

/-- Bounds test for the 128 by 128 pixel SSD1351 panel. -/
def inPanel (x y : Nat) : Bool :=
  decide (x < 128 ∧ y < 128)

/-- Membership in the inside-aligned border ring of stroke width w on
the full 128 by 128 bounding box. -/
def inBorderRing (w x y : Nat) : Bool :=
  decide (x < w ∨ 128 - w ≤ x ∨ y < w ∨ 128 - w ≤ y)

/-- Membership in a rectangle. -/
def inRect (r : Rect) (x y : Nat) : Bool :=
  decide (r.x ≤ x ∧ x < r.x + r.w ∧ r.y ≤ y ∧ y < r.y + r.h)

/-- Membership in the row of 9 by 18 glyph cells of a text drawn with
baseline Top at origin (ox, oy): the FONT_9X18_BOLD cell is 9 pixels
wide and 18 pixels tall, one cell per byte of the text. -/
def inTextCells (s : List Nat) (ox oy x y : Nat) : Bool :=
  decide (ox ≤ x ∧ x < ox + 9 * s.length ∧ oy ≤ y ∧ y < oy + 18)

/-- A monospaced font bitmap: for a character code, a column (0..8) and
a row (0..17), whether that pixel of the 9 by 18 glyph cell is set.
The concrete FONT_9X18_BOLD data lives in the embedded-graphics crate;
every theorem below holds for an arbitrary font. -/
def Glyphs : Type :=
  Nat → Nat → Nat → Bool

/-- The set glyph bit of a text at cell-relative offset (dx, dy):
glyph index dx / 9, column dx % 9, row dy. -/
def textBit (g : Glyphs) (s : List Nat) (dx dy : Nat) : Bool :=
  g (s.getD (dx / 9) 0) (dx % 9) dy

/-- Whether drawing text s at origin (ox, oy) sets the pixel (x, y). -/
def textHit (g : Glyphs) (s : List Nat) (ox oy x y : Nat) : Bool :=
  inTextCells s ox oy x y && textBit g s (x - ox) (y - oy)

/-- Modelled from the spec: section 4.4 Draw Target.  The set of pixels
for which an operation issues a controller data write (the draw-target
implementation lives in the external ssd1351 and embedded-graphics
crates).  clear streams the full panel extent; the border streams its
ring; a filled rectangle streams its interior; draw_text programs the
addressing window to each 9 by 18 glyph cell and streams the whole
glyph bitmap, so every pixel of every cell receives a write.  Writes
are clipped to the panel. -/
def DrawOp.writesAt : DrawOp → Nat → Nat → Bool
  | .clear _, x, y => inPanel x y
  | .borderStroke _ w, x, y => inPanel x y && inBorderRing w x y
  | .fillRect r _, x, y => inPanel x y && inRect r x y
  | .text s ox oy _, x, y => inPanel x y && inTextCells s ox oy x y

/-- Whether any operation in a list writes the pixel (x, y). -/
def opsWrite (ops : List DrawOp) (x y : Nat) : Bool :=
  ops.any (fun op => op.writesAt x y)

/-- The logical frame: a color for every panel coordinate. -/
def Frame : Type :=
  Nat → Nat → Color

/-- Modelled from the spec: section 4.4 Draw Target.  The pixel effect
of one draw operation on the logical frame: clear paints every panel
pixel with its color; the stroked border paints its ring; a filled
rectangle paints its interior; text paints the text color at each set
glyph bit and leaves every other pixel unchanged (for a clear glyph
bit the controller is sent the current background, so the pixel keeps
its value: the glyph draw does not clear its cell). -/
def applyOp (g : Glyphs) (f : Frame) : DrawOp → Frame
  | .clear c => fun x y => if inPanel x y then c else f x y
  | .borderStroke c w => fun x y =>
      if inPanel x y && inBorderRing w x y then c else f x y
  | .fillRect r c => fun x y =>
      if inPanel x y && inRect r x y then c else f x y
  | .text s ox oy c => fun x y =>
      if inPanel x y && textHit g s ox oy x y then c else f x y

/-- Sequential application of draw operations to a frame. -/
def applyOps (g : Glyphs) (f : Frame) (ops : List DrawOp) : Frame :=
  ops.foldl (applyOp g) f

/-- Modelled from the spec: section 4.3 Controller Reset/Init Protocol.
The panel is either not yet initialized or Ready with a logical frame;
all draw-target operations require Ready. -/
inductive PanelState where
  | unpowered
  | ready (f : Frame)

/-- Modelled from the spec: section 4.3.  The hardware reset (reset
line low, hold, high, wait) followed by the fixed init command sequence
brings the panel from any state to Ready; the panel RAM contents after
init are arbitrary, represented by the parameter f0. -/
def hwResetInit (_st : PanelState) (f0 : Frame) : PanelState :=
  .ready f0

/-- Modelled from the spec: a draw operation requires Ready and updates
the logical frame; on an uninitialized panel it has no defined effect
(the state is left unchanged here). -/
def drawOn (g : Glyphs) (st : PanelState) (op : DrawOp) : PanelState :=
  match st with
  | .unpowered => .unpowered
  | .ready f => .ready (applyOp g f op)

/-- Sequential execution of draw operations on the panel state. -/
def runOps (g : Glyphs) (st : PanelState) (ops : List DrawOp) : PanelState :=
  ops.foldl (drawOn g) st

/-- ASCII bytes of the static label drawn at (10, 0). -/
def helloWorldBytes : List Nat :=
  [72, 101, 108, 108, 111, 32, 119, 111, 114, 108, 100, 33]

/-- ASCII bytes of the static label drawn at (10, 20). -/
def helloRustBytes : List Nat :=
  [72, 101, 108, 108, 111, 32, 82, 117, 115, 116, 33]

/-- ASCII bytes of the format prefix (the word counter, a colon and a
space) written before the digits on every tick. -/
def counterPrefixBytes : List Nat :=
  [99, 111, 117, 110, 116, 101, 114, 58, 32]

/-- The per-tick erase rectangle
Rectangle::new(Point::new(90, 40), Size::new(30, 18)). -/
def counterRect : Rect :=
  ⟨90, 40, 30, 18⟩

/-- One-time setup operations of both variants, transcribed from
src/src/main.rs lines 137-162 and src/embassy/src/main.rs lines 84-109:
clear to BLUE, stroked white border of width 3 aligned inside on the
full bounding box, and the two static red labels. -/
def initOps : List DrawOp :=
  [ .clear .blue,
    .borderStroke .white 3,
    .text helloWorldBytes 10 0 .red,
    .text helloRustBytes 10 20 .red ]

/-- Fuel-indexed helper for decimal formatting. -/
def decBytesAux : Nat → Nat → List Nat
  | 0, _ => []
  | fuel + 1, n =>
    if n < 10 then [48 + n]
    else decBytesAux fuel (n / 10) ++ [48 + n % 10]

/-- ASCII bytes of the decimal representation of n, as produced by the
Display formatting of the u32 counter (n + 1 fuel always suffices). -/
def decBytes (n : Nat) : List Nat :=
  decBytesAux (n + 1) n

/-- Observable result of one pass through the render loop body: the new
counter value, the buffer state, the draw-target operations issued, and
whether every unwrap in the body succeeded. -/
structure TickResult where
  count : Nat
  buf : FmtBuf
  ops : List DrawOp
  ok : Bool
deriving DecidableEq

/-- One pass through the loop body of the bare-metal variant,
transcribed from src/src/main.rs lines 172-207: reset the buffer,
write the counter prefix and then the decimal digits of count
(the two write_str calls made by the write macro), increment the
counter with u32 wrap-around, erase the counter rectangle with BLUE,
draw the buffer text at (10, 40) in red.  The LED writes and the
blocking 500 ms delay issue no draw-target operations. -/
def bareLoopStep (count : Nat) (buf : FmtBuf) : TickResult :=
  let b0 := buf.reset
  let r1 := b0.write_str counterPrefixBytes
  let r2 := r1.1.write_str (decBytes count)
  { count := (count + 1) % 4294967296,
    buf := r2.1,
    ops := [ .fillRect counterRect .blue,
             .text (r2.1.as_str.getD []) 10 40 .red ],
    ok := r1.2 && r2.2 && r2.1.as_str.isSome }

/-- Blocking inter-tick delay of the bare-metal variant, in ms. -/
def bareTickWaitMs : Nat := 500

/-- Loop state (counter, buffer) of the bare-metal variant when tick n
starts; the counter starts at 0 with a fresh buffer. -/
def bareStateAfter : Nat → Nat × FmtBuf
  | 0 => (0, FmtBuf.new)
  | n + 1 =>
    let r := bareLoopStep (bareStateAfter n).1 (bareStateAfter n).2
    (r.count, r.buf)

/-- Draw operations issued by the bare-metal variant during tick n. -/
def bareOpsAt (n : Nat) : List DrawOp :=
  (bareLoopStep (bareStateAfter n).1 (bareStateAfter n).2).ops

/-- One pass through the loop body of the cooperative (embassy)
variant, transcribed from src/embassy/src/main.rs lines 119-155: reset
the buffer, write the counter prefix and then the decimal digits of
count, increment the counter with u32 wrap-around, erase the counter
rectangle with BLUE, draw the buffer text at (10, 40) in red.  The LED
writes and the awaited 1 s timer issue no draw-target operations. -/
def embassyLoopStep (count : Nat) (buf : FmtBuf) : TickResult :=
  let b0 := buf.reset
  let r1 := b0.write_str counterPrefixBytes
  let r2 := r1.1.write_str (decBytes count)
  { count := (count + 1) % 4294967296,
    buf := r2.1,
    ops := [ .fillRect counterRect .blue,
             .text (r2.1.as_str.getD []) 10 40 .red ],
    ok := r1.2 && r2.2 && r2.1.as_str.isSome }

/-- Suspending inter-tick delay of the embassy variant, in ms. -/
def embassyTickWaitMs : Nat := 1000

/-- Loop state (counter, buffer) of the embassy variant when tick n
starts; the counter starts at 0 with a fresh buffer. -/
def embassyStateAfter : Nat → Nat × FmtBuf
  | 0 => (0, FmtBuf.new)
  | n + 1 =>
    let r := embassyLoopStep (embassyStateAfter n).1 (embassyStateAfter n).2
    (r.count, r.buf)

/-- Draw operations issued by the embassy variant during tick n. -/
def embassyOpsAt (n : Nat) : List DrawOp :=
  (embassyLoopStep (embassyStateAfter n).1 (embassyStateAfter n).2).ops

theorem decBytesAux_ascii :
    ∀ fuel n : Nat, ∀ x ∈ decBytesAux fuel n, x < 128
  | 0, n => by simp [decBytesAux]
  | fuel + 1, n => by
    intro x hx
    unfold decBytesAux at hx
    split at hx
    · rename_i h
      simp at hx
      omega
    · rename_i h
      rcases List.mem_append.mp hx with h1 | h1
      · exact decBytesAux_ascii fuel (n / 10) x h1
      · simp at h1
        omega

theorem decBytes_ascii (n : Nat) : ∀ x ∈ decBytes n, x < 128 :=
  decBytesAux_ascii (n + 1) n

theorem decBytesAux_len :
    ∀ fuel n k : Nat, n < fuel → n < 10 ^ k → 1 ≤ k →
      (decBytesAux fuel n).length ≤ k
  | 0, n, k => by omega
  | fuel + 1, n, k => by
    intro hf hk h1
    unfold decBytesAux
    split
    · simp only [List.length_cons, List.length_nil]
      omega
    · rename_i h
      simp only [List.length_append, List.length_cons, List.length_nil]
      have hk2 : 2 ≤ k := by
        rcases Nat.lt_or_ge k 2 with h2 | h2
        · exfalso
          have hk1 : k = 1 := by omega
          rw [hk1, pow_one] at hk
          omega
        · exact h2
      have hpow : (10 : Nat) ^ k = 10 ^ (k - 1) * 10 := by
        rw [← pow_succ]
        congr 1
        omega
      have hdiv : n / 10 < 10 ^ (k - 1) := by
        rw [Nat.div_lt_iff_lt_mul (by omega)]
        omega
      have hfu : n / 10 < fuel := by
        have := Nat.div_lt_self (by omega : 0 < n) (by omega : 1 < 10)
        omega
      have := decBytesAux_len fuel (n / 10) (k - 1) hfu hdiv (by omega)
      omega

theorem decBytes_len_le (n k : Nat) (hk : n < 10 ^ k) (h1 : 1 ≤ k) :
    (decBytes n).length ≤ k :=
  decBytesAux_len (n + 1) n k (by omega) hk h1

theorem tick_as_str (count : Nat) (buf : FmtBuf) (hL : buf.buf.length = 64)
    (hd : (decBytes count).length ≤ 55) :
    ((buf.reset.write_str counterPrefixBytes).1.write_str
        (decBytes count)).1.as_str
      = some (counterPrefixBytes ++ decBytes count) := by
  have h0L : buf.reset.buf.length = 64 := hL
  have h0p : buf.reset.ptr = 0 := rfl
  have hw1 : buf.reset.writeLen counterPrefixBytes = 9 := by
    unfold FmtBuf.writeLen
    rw [h0L, h0p]
    decide
  have hc1 : (buf.reset.write_str counterPrefixBytes).1.content
      = counterPrefixBytes := by
    rw [FmtBuf.content_write _ _ (by omega), hw1]
    simp [FmtBuf.content, h0p]
    decide
  have h1L : (buf.reset.write_str counterPrefixBytes).1.buf.length = 64 := by
    rw [FmtBuf.write_str_length _ _ (by omega)]
    exact h0L
  have h1p : (buf.reset.write_str counterPrefixBytes).1.ptr = 9 := by
    rw [FmtBuf.write_str_ptr, h0p, hw1]
  have hw2 : (buf.reset.write_str counterPrefixBytes).1.writeLen
      (decBytes count) = (decBytes count).length := by
    unfold FmtBuf.writeLen
    rw [h1L, h1p]
    split <;> omega
  have hc2 : ((buf.reset.write_str counterPrefixBytes).1.write_str
      (decBytes count)).1.content
      = counterPrefixBytes ++ decBytes count := by
    rw [FmtBuf.content_write _ _ (by rw [h1p, h1L]; omega), hw2, hc1,
      List.take_length]
  have hascii : ∀ x ∈ counterPrefixBytes ++ decBytes count, x < 128 := by
    intro x hx
    rcases List.mem_append.mp hx with h | h
    · have hall : ∀ y ∈ counterPrefixBytes, y < 128 := by decide
      exact hall x h
    · exact decBytes_ascii count x h
  have hv := validUtf8_of_ascii _ hascii
  unfold FmtBuf.as_str
  rw [hc2]
  simp [hv]

theorem bareLoopStep_ops_eq (count : Nat) (buf : FmtBuf)
    (hL : buf.buf.length = 64) (hd : (decBytes count).length ≤ 55) :
    (bareLoopStep count buf).ops
      = [DrawOp.fillRect counterRect Color.blue,
         DrawOp.text (counterPrefixBytes ++ decBytes count) 10 40
           Color.red] := by
  simp only [bareLoopStep]
  rw [tick_as_str count buf hL hd]
  rfl

/-- C4: when the counter holds the maximum u32 value 4294967295, the
next tick of either variant wraps it to 0, and every unwrap performed
in that tick succeeds (ok = true), so the overflow raises no error and
does not halt the loop. -/
theorem C4_wrap_at_max :
    (bareLoopStep 4294967295 FmtBuf.new).count = 0 ∧
    (bareLoopStep 4294967295 FmtBuf.new).ok = true ∧
    (embassyLoopStep 4294967295 FmtBuf.new).count = 0 ∧
    (embassyLoopStep 4294967295 FmtBuf.new).ok = true := by
  have hd : (decBytes 4294967295).length ≤ 55 := by
    have h10 : (4294967295 : Nat) < 10 ^ 10 := by norm_num
    have := decBytes_len_le 4294967295 10 h10 (by norm_num)
    omega
  have h1 := tick_as_str 4294967295 FmtBuf.new (by decide) hd
  refine ⟨rfl, ?_, rfl, ?_⟩ <;>
  · show ((FmtBuf.new.reset.write_str counterPrefixBytes).2 &&
        ((FmtBuf.new.reset.write_str counterPrefixBytes).1.write_str
          (decBytes 4294967295)).2 &&
        ((FmtBuf.new.reset.write_str counterPrefixBytes).1.write_str
          (decBytes 4294967295)).1.as_str.isSome) = true
    rw [FmtBuf.write_str_ok, FmtBuf.write_str_ok, h1]
    rfl

/-- Scan over an operation list: true when every text operation is
preceded (anywhere earlier in the list) by a fill of the counter
rectangle with the background color BLUE. -/
def eraseBeforeText : Bool → List DrawOp → Bool
  | _, [] => true
  | seen, DrawOp.text _ _ _ _ :: rest => seen && eraseBeforeText seen rest
  | seen, DrawOp.fillRect r c :: rest =>
    eraseBeforeText (seen || (r == counterRect && c == Color.blue)) rest
  | seen, _ :: rest => eraseBeforeText seen rest

/-- Whether an operation list contains a text operation. -/
def hasTextOp (ops : List DrawOp) : Bool :=
  ops.any (fun op =>
    match op with
    | DrawOp.text _ _ _ _ => true
    | _ => false)

/-- C7: in every per-tick render cycle of both variants, a text draw is
issued (the counter text), and every text draw in the cycle is preceded
by the erase — the fill of the counter rectangle with the background
color — so the erase always occurs before the draw of the text. -/
theorem C7_erase_before_text (count : Nat) (buf : FmtBuf) :
    hasTextOp ((bareLoopStep count buf).ops) = true ∧
    eraseBeforeText false ((bareLoopStep count buf).ops) = true ∧
    hasTextOp ((embassyLoopStep count buf).ops) = true ∧
    eraseBeforeText false ((embassyLoopStep count buf).ops) = true :=
  ⟨rfl, rfl, rfl, rfl⟩

theorem loopStep_eq (c : Nat) (b : FmtBuf) :
    bareLoopStep c b = embassyLoopStep c b := rfl

theorem stateAfter_eq (n : Nat) :
    bareStateAfter n = embassyStateAfter n := by
  induction n with
  | zero => rfl
  | succ k ih =>
    unfold bareStateAfter embassyStateAfter
    rw [ih, loopStep_eq]

/-- C8: the bare-metal and the embassy variants are behaviorally
equivalent at the draw-target level: starting from the same initial
state (counter 0, fresh buffer), at every tick index n both issue the
same sequence of draw operations with the same arguments (same erase
rectangle, same formatted counter text at the same origin), and their
loop states agree; they differ only in how the inter-tick wait is
realized. -/
theorem C8_variants_equivalent (n : Nat) :
    bareOpsAt n = embassyOpsAt n ∧
    bareStateAfter n = embassyStateAfter n := by
  refine ⟨?_, stateAfter_eq n⟩
  unfold bareOpsAt embassyOpsAt
  rw [stateAfter_eq n, loopStep_eq]

/-- C3 counterexample: in the tick that renders counter value 42 (the
example named by the claim), the draw of the text counter colon space
42 at origin (10, 40) writes pixels far to the left of the counter
rectangle (90,40)-(120,58): pixel (10, 45) receives a controller write
although it lies outside that rectangle, because the whole text,
prefix included, is redrawn every tick. -/
theorem C3_write_outside_rect :
    opsWrite ((bareLoopStep 42 FmtBuf.new).ops) 10 45 = true ∧
    inRect counterRect 10 45 = false := by
  decide

/-- C3 amended: every controller write issued between two consecutive
renders lies inside the counter rectangle (90,40)-(120,58) or inside
the 9 by 18 glyph cells of the counter text drawn at (10, 40); the
static-text regions receive zero writes at every tick, and the border
region receives zero writes whenever the counter is at most 999 (so
that the text, at most 12 glyphs, ends before the right border
column), which covers the 41 to 42 example of the claim. -/
theorem C3_counter_region_writes (count : Nat) (buf : FmtBuf) (x y : Nat)
    (hL : buf.buf.length = 64) (hc : count < 4294967296) :
    (opsWrite ((bareLoopStep count buf).ops) x y = true →
      (inRect counterRect x y = true ∨
        inTextCells (counterPrefixBytes ++ decBytes count) 10 40 x y
          = true)) ∧
    (inTextCells helloWorldBytes 10 0 x y = true →
      opsWrite ((bareLoopStep count buf).ops) x y = false) ∧
    (inTextCells helloRustBytes 10 20 x y = true →
      opsWrite ((bareLoopStep count buf).ops) x y = false) ∧
    (count ≤ 999 → inBorderRing 3 x y = true →
      opsWrite ((bareLoopStep count buf).ops) x y = false) := by
  have hd10 : (decBytes count).length ≤ 10 :=
    decBytes_len_le count 10 (by norm_num; omega) (by norm_num)
  have hops := bareLoopStep_ops_eq count buf hL (by omega)
  rw [hops]
  have hlen : (counterPrefixBytes ++ decBytes count).length
      = 9 + (decBytes count).length := by
    simp [counterPrefixBytes]
    omega
  have hwl : helloWorldBytes.length = 12 := rfl
  have hrl : helloRustBytes.length = 11 := rfl
  simp only [opsWrite, List.any_cons, List.any_nil, Bool.or_false,
    DrawOp.writesAt]
  refine ⟨?_, ?_, ?_, ?_⟩
  · intro h
    rw [Bool.or_eq_true, Bool.and_eq_true, Bool.and_eq_true] at h
    rcases h with h | h
    · exact Or.inl h.2
    · exact Or.inr h.2
  · intro ht
    cases hw : (inPanel x y && inRect counterRect x y ||
        inPanel x y
          && inTextCells (counterPrefixBytes ++ decBytes count) 10 40 x y)
    · rfl
    · exfalso
      simp only [inTextCells, hwl, decide_eq_true_eq] at ht
      rw [Bool.or_eq_true, Bool.and_eq_true, Bool.and_eq_true] at hw
      rcases hw with h | h
      · have h2 := h.2
        simp only [inRect, counterRect, decide_eq_true_eq] at h2
        omega
      · have h2 := h.2
        simp only [inTextCells, hlen, decide_eq_true_eq] at h2
        omega
  · intro ht
    cases hw : (inPanel x y && inRect counterRect x y ||
        inPanel x y
          && inTextCells (counterPrefixBytes ++ decBytes count) 10 40 x y)
    · rfl
    · exfalso
      simp only [inTextCells, hrl, decide_eq_true_eq] at ht
      rw [Bool.or_eq_true, Bool.and_eq_true, Bool.and_eq_true] at hw
      rcases hw with h | h
      · have h2 := h.2
        simp only [inRect, counterRect, decide_eq_true_eq] at h2
        omega
      · have h2 := h.2
        simp only [inTextCells, hlen, decide_eq_true_eq] at h2
        omega
  · intro h999 hb
    have hd3 : (decBytes count).length ≤ 3 :=
      decBytes_len_le count 3 (by omega) (by norm_num)
    cases hw : (inPanel x y && inRect counterRect x y ||
        inPanel x y
          && inTextCells (counterPrefixBytes ++ decBytes count) 10 40 x y)
    · rfl
    · exfalso
      simp only [inBorderRing, decide_eq_true_eq] at hb
      rw [Bool.or_eq_true, Bool.and_eq_true, Bool.and_eq_true] at hw
      rcases hw with h | h
      · have h2 := h.2
        simp only [inRect, counterRect, decide_eq_true_eq] at h2
        omega
      · have h2 := h.2
        simp only [inTextCells, hlen, decide_eq_true_eq] at h2
        omega

/-- C3 amended, witness at the tick rendering 42 and the pixel
(10, 45). -/
theorem C3_counter_region_writes_witness :
    (opsWrite ((bareLoopStep 42 FmtBuf.new).ops) 10 45 = true →
      (inRect counterRect 10 45 = true ∨
        inTextCells (counterPrefixBytes ++ decBytes 42) 10 40 10 45
          = true)) ∧
    (inTextCells helloWorldBytes 10 0 10 45 = true →
      opsWrite ((bareLoopStep 42 FmtBuf.new).ops) 10 45 = false) ∧
    (inTextCells helloRustBytes 10 20 10 45 = true →
      opsWrite ((bareLoopStep 42 FmtBuf.new).ops) 10 45 = false) ∧
    ((42 : Nat) ≤ 999 → inBorderRing 3 10 45 = true →
      opsWrite ((bareLoopStep 42 FmtBuf.new).ops) 10 45 = false) :=
  C3_counter_region_writes 42 FmtBuf.new 10 45 (by decide) (by decide)

/-- The frame described by the spec scenario (section 8 item 5),
written from the words of the spec for comparison with the frame the
setup operations produce: the two red labels wherever their glyph bits
are set, the 3-pixel inset white border on the rest of the ring, and
BLUE background everywhere else. -/
def specInitFrame (g : Glyphs) : Frame := fun x y =>
  if textHit g helloWorldBytes 10 0 x y
      || textHit g helloRustBytes 10 20 x y then Color.red
  else if inBorderRing 3 x y then Color.white
  else Color.blue

/-- C6: starting from the Unpowered state, the hardware reset plus init
sequence leaves the panel Ready with arbitrary RAM contents f0, and
running the setup operations (clear BLUE, 3-pixel inside white border,
the two red labels) leaves the panel Ready with a logical frame that
equals the spec frame at every panel pixel, for an arbitrary font g. -/
theorem C6_init_scenario (g : Glyphs) (f0 : Frame) (x y : Nat)
    (hx : x < 128) (hy : y < 128) :
    runOps g (hwResetInit PanelState.unpowered f0) initOps
      = PanelState.ready (applyOps g f0 initOps) ∧
    applyOps g f0 initOps x y = specInitFrame g x y := by
  refine ⟨rfl, ?_⟩
  have hp : inPanel x y = true := by
    simp [inPanel]
    omega
  simp only [applyOps, initOps, List.foldl_cons, List.foldl_nil, applyOp,
    specInitFrame]
  rw [hp]
  simp only [Bool.true_and]
  cases h2 : textHit g helloRustBytes 10 20 x y <;>
    cases h1 : textHit g helloWorldBytes 10 0 x y <;>
      cases hb : inBorderRing 3 x y <;>
        simp [h1, h2, hb]

/-- C6 witness at the all-clear font, a red initial frame and the
pixel (0, 0). -/
theorem C6_init_scenario_witness :
    runOps (fun _ _ _ => false)
        (hwResetInit PanelState.unpowered (fun _ _ => Color.red)) initOps
      = PanelState.ready
          (applyOps (fun _ _ _ => false) (fun _ _ => Color.red) initOps) ∧
    applyOps (fun _ _ _ => false) (fun _ _ => Color.red) initOps 0 0
      = specInitFrame (fun _ _ _ => false) 0 0 :=
  C6_init_scenario (fun _ _ _ => false) (fun _ _ => Color.red) 0 0
    (by decide) (by decide)
